import Mathlib

/-!
Verification of the Robuttal debate-orchestration backend.

The definitions below are shallow embeddings of the Python services in
`backend/app/services/` (elo.py, judge.py, orchestrator.py, scheduler.py).
Numeric code that Python executes in floating point is modelled in exact
real arithmetic; Python's `round` (banker's rounding, round half to even)
is modelled by `pyRound`.
-/

namespace Robuttal

deriving instance DecidableEq for Except

open Classical in
/-- Python's built-in `round`: round to nearest integer, ties to even. -/
noncomputable def pyRound (x : ℝ) : ℤ :=
  if Int.fract x = 1 / 2 then (if Even ⌊x⌋ then ⌊x⌋ else ⌊x⌋ + 1) else round x

theorem pyRound_eq (x : ℝ) (n : ℤ) (h1 : (n : ℝ) - 1 / 2 < x)
    (h2 : x < (n : ℝ) + 1 / 2) : pyRound x = n := by
  have hfr : Int.fract x ≠ 1 / 2 := by
    intro hf
    have hx : x = (⌊x⌋ : ℝ) + 1 / 2 := by
      have hfl := Int.floor_add_fract x
      rw [hf] at hfl
      linarith
    rw [hx] at h1 h2
    have h3 : (n : ℝ) - 1 < (⌊x⌋ : ℝ) := by linarith
    have h4 : ((⌊x⌋ : ℝ)) < n := by linarith
    have h3' : n - 1 < ⌊x⌋ := by exact_mod_cast h3
    have h4' : ⌊x⌋ < n := by exact_mod_cast h4
    omega
  rw [pyRound, if_neg hfr, round_eq]
  rw [Int.floor_eq_iff]
  constructor
  · linarith
  · linarith

theorem abs_pyRound_sub (x : ℝ) : |(pyRound x : ℝ) - x| ≤ 1 / 2 := by
  rw [pyRound]
  split
  case isTrue hf =>
    have hx : x = (⌊x⌋ : ℝ) + 1 / 2 := by
      have hfl := Int.floor_add_fract x
      rw [hf] at hfl
      linarith
    split
    · rw [abs_le]
      constructor <;> linarith [hx]
    · push_cast
      rw [abs_le]
      constructor <;> linarith [hx]
  case isFalse hf =>
    rw [abs_sub_comm]
    exact abs_sub_round x

/-- Auxiliary: rounding two quantities that shift by opposite real amounts
keeps the total drift within one unit. -/
theorem pyRound_shift_sum_bound (W L : ℤ) (x : ℝ) :
    |((pyRound ((W : ℝ) + x) - W) + (pyRound ((L : ℝ) - x) - L))| ≤ 1 := by
  have h1 := abs_pyRound_sub ((W : ℝ) + x)
  have h2 := abs_pyRound_sub ((L : ℝ) - x)
  have hcast : ((((pyRound ((W : ℝ) + x) - W) + (pyRound ((L : ℝ) - x) - L)) : ℤ) : ℝ)
      = ((pyRound ((W : ℝ) + x) : ℝ) - ((W : ℝ) + x))
        + ((pyRound ((L : ℝ) - x) : ℝ) - ((L : ℝ) - x)) := by
    push_cast
    ring
  have hR : |((((pyRound ((W : ℝ) + x) - W) + (pyRound ((L : ℝ) - x) - L)) : ℤ) : ℝ)| ≤ 1 := by
    rw [hcast]
    calc |((pyRound ((W : ℝ) + x) : ℝ) - ((W : ℝ) + x))
          + ((pyRound ((L : ℝ) - x) : ℝ) - ((L : ℝ) - x))|
        ≤ |(pyRound ((W : ℝ) + x) : ℝ) - ((W : ℝ) + x)|
          + |(pyRound ((L : ℝ) - x) : ℝ) - ((L : ℝ) - x)| := abs_add _ _
      _ ≤ 1 / 2 + 1 / 2 := add_le_add h1 h2
      _ = 1 := by norm_num
  exact_mod_cast hR

/-- Expected score of the winner, from `calculate_new_elos` in
`backend/app/services/elo.py`:
`expected_winner = 1 / (1 + 10 ** ((loser_elo - winner_elo) / 400))`. -/
noncomputable def expected_winner (winner_elo loser_elo : ℤ) : ℝ :=
  1 / (1 + (10 : ℝ) ^ ((((loser_elo : ℝ)) - ((winner_elo : ℝ))) / 400))

/-- `calculate_new_elos` from `backend/app/services/elo.py` (exact real
semantics of the float computation; Python's `round` as `pyRound`):
winner gets actual score 1, loser gets 0. -/
noncomputable def calculate_new_elos (winner_elo loser_elo : ℤ) (k : ℤ) : ℤ × ℤ :=
  let ew : ℝ := expected_winner winner_elo loser_elo
  let el : ℝ := 1 - ew
  (pyRound ((winner_elo : ℝ) + (k : ℝ) * (1 - ew)),
   pyRound ((loser_elo : ℝ) + (k : ℝ) * (0 - el)))

theorem expected_winner_ten_elo_gap : expected_winner 1900 1500 = 10 / 11 := by
  unfold expected_winner
  rw [show ((((1500 : ℤ) : ℝ)) - (((1900 : ℤ) : ℝ))) / 400 = (-1 : ℝ) from by norm_num]
  rw [Real.rpow_neg_one]
  norm_num

/-- C1 counterexample: at winner rating 1900 and loser rating 1500 the code
returns 1497 for the loser, while the claimed formula
`R_l' = round(R_l - K * E_w)` gives 1471. -/
theorem elo_loser_formula_cex :
    (calculate_new_elos 1900 1500 32).2
      ≠ pyRound ((1500 : ℝ) - (32 : ℝ) * expected_winner 1900 1500) := by
  have hlhs : (calculate_new_elos 1900 1500 32).2 = 1497 := by
    simp only [calculate_new_elos, expected_winner_ten_elo_gap]
    apply pyRound_eq
    · norm_num
    · norm_num
  have hrhs : pyRound ((1500 : ℝ) - (32 : ℝ) * expected_winner 1900 1500) = 1471 := by
    rw [expected_winner_ten_elo_gap]
    apply pyRound_eq
    · norm_num
    · norm_num
  rw [hlhs, hrhs]
  decide

/-- C1 (amended): `calculate_new_elos` returns
`R_w' = round(R_w + K * (1 - E_w))` for the winner and
`R_l' = round(R_l - K * (1 - E_w))` for the loser, with
`E_w = 1 / (1 + 10 ^ ((R_l - R_w) / 400))`. -/
theorem calculate_new_elos_formula (w l k : ℤ) :
    calculate_new_elos w l k
      = (pyRound ((w : ℝ) + (k : ℝ) * (1 - expected_winner w l)),
         pyRound ((l : ℝ) - (k : ℝ) * (1 - expected_winner w l))) := by
  simp only [calculate_new_elos, Prod.mk.injEq, true_and]
  exact congrArg pyRound (by ring)

/-- Drift of the combined rating pool in one `calculate_new_elos` call is at
most one point (it comes only from the two independent roundings). -/
theorem calculate_new_elos_sum_bound (W L k : ℤ) :
    |((calculate_new_elos W L k).1 - W) + ((calculate_new_elos W L k).2 - L)| ≤ 1 := by
  simp only [calculate_new_elos]
  rw [show ((L : ℝ) + (k : ℝ) * (0 - (1 - expected_winner W L)))
      = (L : ℝ) - (k : ℝ) * (1 - expected_winner W L) from by ring]
  exact pyRound_shift_sum_bound W L ((k : ℝ) * (1 - expected_winner W L))

/-- `Model` row from `backend/app/models/model.py` (the fields the services
read or write). -/
structure Model where
  id : ℕ
  name : String
  provider : String
  elo_rating : ℤ
  avg_judge_score : Option ℚ
  is_active : Bool
  times_excused : ℕ
  debates_won : ℕ
  debates_lost : ℕ
  times_judged : ℕ
deriving DecidableEq

/-- `DebateStatus` from `backend/app/models/enums.py`. -/
inductive DebateStatus where
  | scheduled
  | in_progress
  | judging
  | completed
deriving DecidableEq

/-- The `Debate` row fields touched by the Elo service
(`backend/app/models/debate.py`). -/
structure DebateRow where
  debater_pro_id : ℕ
  debater_con_id : ℕ
  judge_id : ℕ
  auditor_id : ℕ
  winner_id : Option ℕ
  status : DebateStatus
  pro_elo_before : Option ℤ
  pro_elo_after : Option ℤ
  con_elo_before : Option ℤ
  con_elo_after : Option ℤ
deriving DecidableEq

/-- `update_elos_for_debate` from `backend/app/services/elo.py`: determines
winner and loser from `winner_id`, applies `calculate_new_elos` (K = 32),
increments win/loss counters, and records before/after snapshots on the
debate row. The two `Model` arguments are the pro and con debater rows the
ORM query loads. -/
noncomputable def update_elos_for_debate (debate : DebateRow) (pro con : Model) :
    Except String (DebateRow × Model × Model) :=
  if debate.status ≠ DebateStatus.completed then
    Except.error "debate is not completed"
  else
    match debate.winner_id with
    | none => Except.error "debate has no winner"
    | some w =>
      let winner := if w = debate.debater_pro_id then pro else con
      let loser := if w = debate.debater_pro_id then con else pro
      let winner_old_elo := winner.elo_rating
      let loser_old_elo := loser.elo_rating
      let p := calculate_new_elos winner_old_elo loser_old_elo 32
      let winner' := { winner with elo_rating := p.1, debates_won := winner.debates_won + 1 }
      let loser' := { loser with elo_rating := p.2, debates_lost := loser.debates_lost + 1 }
      let debate' :=
        if w = debate.debater_pro_id then
          { debate with pro_elo_before := some winner_old_elo, pro_elo_after := some p.1,
                        con_elo_before := some loser_old_elo, con_elo_after := some p.2 }
        else
          { debate with pro_elo_before := some loser_old_elo, pro_elo_after := some p.2,
                        con_elo_before := some winner_old_elo, con_elo_after := some p.1 }
      Except.ok (debate',
        if w = debate.debater_pro_id then (winner', loser') else (loser', winner'))

/-- C5: after the Elo update for a completed debate with a winner, the pro
delta and the con delta recorded on the debate row sum to zero up to the
one-point rounding drift. -/
theorem elo_deltas_sum_bounded (debate : DebateRow) (pro con : Model)
    (h1 : debate.status = DebateStatus.completed)
    (h2 : debate.winner_id.isSome = true) :
    ∃ d' p' c', update_elos_for_debate debate pro con = Except.ok (d', p', c') ∧
      ∃ pb pa cb ca, d'.pro_elo_before = some pb ∧ d'.pro_elo_after = some pa ∧
        d'.con_elo_before = some cb ∧ d'.con_elo_after = some ca ∧
        |(pa - pb) + (ca - cb)| ≤ 1 := by
  obtain ⟨w, hw⟩ := Option.isSome_iff_exists.mp h2
  by_cases hwp : w = debate.debater_pro_id
  · simp only [update_elos_for_debate, h1, hw, hwp, ne_eq, not_true_eq_false,
      Bool.false_eq_true, if_false, ite_true, if_true, eq_self_iff_true]
    refine ⟨_, _, _, rfl, _, _, _, _, rfl, rfl, rfl, rfl, ?_⟩
    exact calculate_new_elos_sum_bound pro.elo_rating con.elo_rating 32
  · simp only [update_elos_for_debate, h1, hw, hwp, ne_eq, not_true_eq_false,
      Bool.false_eq_true, if_false, ite_false, eq_self_iff_true]
    refine ⟨_, _, _, rfl, _, _, _, _, rfl, rfl, rfl, rfl, ?_⟩
    rw [add_comm]
    exact calculate_new_elos_sum_bound con.elo_rating pro.elo_rating 32

def wdDebate : DebateRow :=
  ⟨1, 2, 3, 4, some 1, DebateStatus.completed, none, none, none, none⟩

def wdPro : Model := ⟨1, "A", "openai", 1500, none, true, 0, 0, 0, 0⟩

def wdCon : Model := ⟨2, "B", "xai", 1500, none, true, 0, 0, 0, 0⟩

theorem elo_deltas_sum_bounded_witness :
    wdDebate.status = DebateStatus.completed ∧ wdDebate.winner_id.isSome = true ∧
    (∃ d' p' c', update_elos_for_debate wdDebate wdPro wdCon = Except.ok (d', p', c') ∧
      ∃ pb pa cb ca, d'.pro_elo_before = some pb ∧ d'.pro_elo_after = some pa ∧
        d'.con_elo_before = some cb ∧ d'.con_elo_after = some ca ∧
        |(pa - pb) + (ca - cb)| ≤ 1) :=
  ⟨rfl, rfl, elo_deltas_sum_bounded wdDebate wdPro wdCon rfl rfl⟩

/-! ## Judge service: structured-output parsing (`backend/app/services/judge.py`) -/

/-- The audit JSON fields `_parse_audit` reads (a field is `none` when the
key is absent from the model's JSON). -/
structure AuditJson where
  accuracy : Option ℤ
  fairness : Option ℤ
  thoroughness : Option ℤ
  reasoning_quality : Option ℤ
  overall_score : Option ℚ
  notes : Option String
deriving DecidableEq

/-- `AuditResult` from `backend/app/services/judge.py`. -/
structure AuditResult where
  accuracy : ℤ
  fairness : ℤ
  thoroughness : ℤ
  reasoning_quality : ℤ
  overall_score : ℚ
  notes : String
deriving DecidableEq

/-- `JudgeService._parse_audit`: requires the four sub-score fields, checks
each lies in 0..10, and takes `overall_score` from the JSON when present,
else the mean of the four sub-scores. A provided `overall_score` is not
range-checked. -/
def parse_audit (data : AuditJson) : Except String AuditResult :=
  match data.accuracy, data.fairness, data.thoroughness, data.reasoning_quality with
  | some accuracy, some fairness, some thoroughness, some reasoning_quality =>
    if ¬(0 ≤ accuracy ∧ accuracy ≤ 10) then Except.error "accuracy must be 0-10"
    else if ¬(0 ≤ fairness ∧ fairness ≤ 10) then Except.error "fairness must be 0-10"
    else if ¬(0 ≤ thoroughness ∧ thoroughness ≤ 10) then
      Except.error "thoroughness must be 0-10"
    else if ¬(0 ≤ reasoning_quality ∧ reasoning_quality ≤ 10) then
      Except.error "reasoning_quality must be 0-10"
    else
      let overall_score : ℚ := data.overall_score.getD
        (((accuracy + fairness + thoroughness + reasoning_quality : ℤ) : ℚ) / 4)
      Except.ok ⟨accuracy, fairness, thoroughness, reasoning_quality, overall_score,
        data.notes.getD ""⟩
  | _, _, _, _ => Except.error "Missing required field in audit"

/-- What a successful audit parse guarantees: sub-scores in range; the
overall equals the mean and is in range when the JSON omitted it; a
provided overall passes through unchanged. -/
def auditScoresValid (data : AuditJson) (r : AuditResult) : Prop :=
  (0 ≤ r.accuracy ∧ r.accuracy ≤ 10) ∧ (0 ≤ r.fairness ∧ r.fairness ≤ 10) ∧
  (0 ≤ r.thoroughness ∧ r.thoroughness ≤ 10) ∧
  (0 ≤ r.reasoning_quality ∧ r.reasoning_quality ≤ 10) ∧
  (data.overall_score = none →
    r.overall_score
        = ((r.accuracy + r.fairness + r.thoroughness + r.reasoning_quality : ℤ) : ℚ) / 4 ∧
      0 ≤ r.overall_score ∧ r.overall_score ≤ 10) ∧
  (∀ v, data.overall_score = some v → r.overall_score = v)

def audit_cex : AuditJson := ⟨some 5, some 5, some 5, some 5, some 11, none⟩

/-- C4 counterexample: `_parse_audit` accepts a provided `overall_score` of
11 without any range check, so the parsed overall is not in [0,10]. -/
theorem parse_audit_overall_unchecked_cex :
    ¬(∀ r, parse_audit audit_cex = Except.ok r →
        0 ≤ r.overall_score ∧ r.overall_score ≤ 10) := by
  intro h
  have hr := h ⟨5, 5, 5, 5, 11, ""⟩ (by decide)
  have : ¬((11 : ℚ) ≤ 10) := by norm_num
  exact this hr.2

/-- C4 (amended): every successful audit parse has the four sub-scores in
[0,10]; when the JSON omitted `overall_score` the overall equals the mean
of the sub-scores (hence is in [0,10]); a provided overall is passed
through without range validation. -/
theorem parse_audit_spec (data : AuditJson) (r : AuditResult)
    (h : parse_audit data = Except.ok r) : auditScoresValid data r := by
  obtain ⟨acc, fair, thor, rq, ov, nts⟩ := data
  cases acc with
  | none => exact absurd h (by simp [parse_audit])
  | some a =>
  cases fair with
  | none => exact absurd h (by simp [parse_audit])
  | some f =>
  cases thor with
  | none => exact absurd h (by simp [parse_audit])
  | some t =>
  cases rq with
  | none => exact absurd h (by simp [parse_audit])
  | some q =>
  simp only [parse_audit] at h
  split_ifs at h with h1 h2 h3 h4
  cases h
  refine ⟨h1, h2, h3, h4, ?_, ?_⟩
  · intro hov
    subst hov
    simp only [Option.getD_none]
    refine ⟨trivial, ?_, ?_⟩
    · apply div_nonneg _ (by norm_num)
      exact_mod_cast (by omega : (0 : ℤ) ≤ a + f + t + q)
    · rw [div_le_iff₀ (by norm_num)]
      have hsum : (a + f + t + q : ℤ) ≤ 40 := by omega
      calc ((a + f + t + q : ℤ) : ℚ) ≤ (40 : ℚ) := by exact_mod_cast hsum
        _ = 10 * 4 := by norm_num
  · intro v hov
    subst hov
    rfl

def audit_wit : AuditJson := ⟨some 5, some 6, some 7, some 8, none, some "ok"⟩

def audit_wit_result : AuditResult := ⟨5, 6, 7, 8, 13 / 2, "ok"⟩

theorem parse_audit_spec_witness :
    parse_audit audit_wit = Except.ok audit_wit_result ∧
      auditScoresValid audit_wit audit_wit_result := by
  have h : parse_audit audit_wit = Except.ok audit_wit_result := by
    norm_num [parse_audit, audit_wit, audit_wit_result, Except.ok.injEq,
      AuditResult.mk.injEq]
  exact ⟨h, parse_audit_spec audit_wit audit_wit_result h⟩

/-- Per-category score object in the judge's JSON (`pro_scores` /
`con_scores`); each key may be absent. -/
structure CategoryScoresJson where
  logical_consistency : Option ℤ
  evidence : Option ℤ
  persuasiveness : Option ℤ
  engagement : Option ℤ
deriving DecidableEq

/-- `CategoryScores` from `backend/app/services/judge.py`. -/
structure CategoryScores where
  logical_consistency : ℤ
  evidence : ℤ
  persuasiveness : ℤ
  engagement : ℤ
deriving DecidableEq

/-- The judgment JSON fields `_parse_judgment` reads. -/
structure JudgmentJson where
  pro_scores : Option CategoryScoresJson
  con_scores : Option CategoryScoresJson
  pro_score : Option ℤ
  con_score : Option ℤ
  winner : Option String
  reasoning : Option String
deriving DecidableEq

/-- `JudgmentResult` from `backend/app/services/judge.py`. -/
structure JudgmentResult where
  pro_score : ℤ
  con_score : ℤ
  winner : String
  reasoning : String
  pro_scores : Option CategoryScores
  con_scores : Option CategoryScores
deriving DecidableEq

/-- Reading one category object with `.get(key, 0)` defaults, as in
`_parse_judgment`. -/
def readCategoryScores (c : CategoryScoresJson) : CategoryScores :=
  ⟨c.logical_consistency.getD 0, c.evidence.getD 0,
   c.persuasiveness.getD 0, c.engagement.getD 0⟩

def categoryTotal (c : CategoryScores) : ℤ :=
  c.logical_consistency + c.evidence + c.persuasiveness + c.engagement

/-- `JudgeService._parse_judgment`: totals come from the category objects
when both are present, else from the flat `pro_score`/`con_score` fields;
totals must lie in 0..100; a missing `winner` is derived as `"pro"` when
`pro_score > con_score`, else `"con"`; a present winner is lower-cased and
must be `"pro"` or `"con"`. -/
def parse_judgment (data : JudgmentJson) : Except String JudgmentResult :=
  let scored : Except String (ℤ × ℤ × Option CategoryScores × Option CategoryScores) :=
    match data.pro_scores, data.con_scores with
    | some ps, some cs =>
      let p := readCategoryScores ps
      let c := readCategoryScores cs
      Except.ok (categoryTotal p, categoryTotal c, some p, some c)
    | _, _ =>
      match data.pro_score, data.con_score with
      | some p, some c => Except.ok (p, c, none, none)
      | _, _ => Except.error "Missing required score fields in judgment"
  match scored with
  | Except.error e => Except.error e
  | Except.ok (pro_score, con_score, pcat, ccat) =>
    if ¬(0 ≤ pro_score ∧ pro_score ≤ 100) then Except.error "pro_score must be 0-100"
    else if ¬(0 ≤ con_score ∧ con_score ≤ 100) then Except.error "con_score must be 0-100"
    else
      let winner : String :=
        match data.winner with
        | none => if con_score < pro_score then "pro" else "con"
        | some w => w.toLower
      if winner ≠ "pro" ∧ winner ≠ "con" then Except.error "winner must be pro or con"
      else Except.ok ⟨pro_score, con_score, winner, data.reasoning.getD "", pcat, ccat⟩

/-- C10: when the judge's JSON omits `winner`, the parser derives it as
`"pro"` exactly when the pro total strictly exceeds the con total, so an
exact tie parses successfully with winner `"con"`. -/
theorem parse_judgment_default_winner (data : JudgmentJson) (r : JudgmentResult)
    (hw : data.winner = none) (h : parse_judgment data = Except.ok r) :
    r.winner = (if r.con_score < r.pro_score then "pro" else "con") ∧
      (r.pro_score = r.con_score → r.winner = "con") := by
  obtain ⟨pcs, ccs, pfl, cfl, win, rea⟩ := data
  simp only at hw
  subst hw
  have main : ∀ pt ct pc cc,
      (if ¬(0 ≤ pt ∧ pt ≤ 100) then (Except.error "pro_score must be 0-100" :
          Except String JudgmentResult)
       else if ¬(0 ≤ ct ∧ ct ≤ 100) then Except.error "con_score must be 0-100"
       else
        let winner : String := if ct < pt then "pro" else "con"
        if winner ≠ "pro" ∧ winner ≠ "con" then Except.error "winner must be pro or con"
        else Except.ok ⟨pt, ct, winner, rea.getD "", pc, cc⟩) = Except.ok r →
      r.winner = (if r.con_score < r.pro_score then "pro" else "con") ∧
        (r.pro_score = r.con_score → r.winner = "con") := by
    intro pt ct pc cc hm
    split at hm
    · exact Except.noConfusion hm
    split at hm
    · exact Except.noConfusion hm
    by_cases hct : ct < pt
    · simp only [hct, if_true] at hm
      rw [if_neg (by simp)] at hm
      cases hm
      refine ⟨?_, ?_⟩
      · show "pro" = if ct < pt then "pro" else "con"
        rw [if_pos hct]
      · intro heq
        have heq' : pt = ct := heq
        exact absurd hct (by omega)
    · simp only [hct, if_false] at hm
      rw [if_neg (by simp)] at hm
      cases hm
      refine ⟨?_, ?_⟩
      · show "con" = if ct < pt then "pro" else "con"
        rw [if_neg hct]
      · intro _
        rfl
  cases pcs with
  | some ps =>
    cases ccs with
    | some cs =>
      simp only [parse_judgment] at h
      exact main _ _ _ _ h
    | none =>
      cases pfl with
      | none => exact absurd h (by simp [parse_judgment])
      | some p =>
        cases cfl with
        | none => exact absurd h (by simp [parse_judgment])
        | some c =>
          simp only [parse_judgment] at h
          exact main _ _ _ _ h
  | none =>
    cases pfl with
    | none => exact absurd h (by simp [parse_judgment])
    | some p =>
      cases cfl with
      | none => exact absurd h (by simp [parse_judgment])
      | some c =>
        simp only [parse_judgment] at h
        exact main _ _ _ _ h

def judgment_wit : JudgmentJson := ⟨none, none, some 50, some 50, none, none⟩

def judgment_wit_result : JudgmentResult := ⟨50, 50, "con", "", none, none⟩

theorem parse_judgment_default_winner_witness :
    judgment_wit.winner = none ∧
      parse_judgment judgment_wit = Except.ok judgment_wit_result ∧
      (judgment_wit_result.winner
          = (if judgment_wit_result.con_score < judgment_wit_result.pro_score
             then "pro" else "con") ∧
        (judgment_wit_result.pro_score = judgment_wit_result.con_score →
          judgment_wit_result.winner = "con")) := by
  have h : parse_judgment judgment_wit = Except.ok judgment_wit_result := by decide
  exact ⟨rfl, h, parse_judgment_default_winner judgment_wit judgment_wit_result rfl h⟩

/-! ## Debate orchestrator (`backend/app/services/orchestrator.py`) -/

/-- `DebatePhase` from `backend/app/models/enums.py`. -/
inductive DebatePhase where
  | opening
  | rebuttal
  | cross_examination
  | closing
  | judgment
  | audit
deriving DecidableEq

/-- `DebatePosition` from `backend/app/models/enums.py`. -/
inductive DebatePosition where
  | pro
  | con
  | judge
  | auditor
deriving DecidableEq

/-- One transcript entry as the orchestrator's prompt builder reads it. -/
structure TEntry where
  phase : DebatePhase
  position : Option DebatePosition
  content : String
deriving DecidableEq

/-- The `.value` string of each phase enum member. -/
def phaseValue : DebatePhase → String
  | DebatePhase.opening => "opening"
  | DebatePhase.rebuttal => "rebuttal"
  | DebatePhase.cross_examination => "cross_examination"
  | DebatePhase.closing => "closing"
  | DebatePhase.judgment => "judgment"
  | DebatePhase.audit => "audit"

/-- `PHASE_NAMES` from `orchestrator.py` (a dict over the four debate
phases; lookups fall back to the enum value). -/
def PHASE_NAMES : DebatePhase → Option String
  | DebatePhase.opening => some "Opening Statement"
  | DebatePhase.rebuttal => some "Rebuttal"
  | DebatePhase.cross_examination => some "Cross-Examination"
  | DebatePhase.closing => some "Closing Argument"
  | _ => none

/-- `entry.position.value.upper()`. -/
def positionLabel : DebatePosition → String
  | DebatePosition.pro => "PRO"
  | DebatePosition.con => "CON"
  | DebatePosition.judge => "JUDGE"
  | DebatePosition.auditor => "AUDITOR"

/-- A chat message handed to a provider adapter. -/
structure Message where
  role : String
  content : String
deriving DecidableEq

/-- `DebateOrchestrator._build_messages_from_transcript`: opening turns get
a fixed start message independent of the transcript; every other phase
sees the full transcript formatted with speaker and phase labels, with a
fallback message when the transcript is empty. -/
def build_messages_from_transcript (transcript : List TEntry)
    (current_phase : DebatePhase) : List Message :=
  if current_phase = DebatePhase.opening then
    [⟨"user", "The debate is beginning. Please provide your opening statement."⟩]
  else
    let messages := transcript.map (fun entry =>
      let speaker_label := match entry.position with
        | some p => "[" ++ positionLabel p ++ "]"
        | none => "[SPEAKER]"
      let phase_label := (PHASE_NAMES entry.phase).getD (phaseValue entry.phase)
      (⟨"user", speaker_label ++ " (" ++ phase_label ++ "):\n" ++ entry.content⟩ : Message))
    if messages = [] then [⟨"user", "Please provide your response."⟩] else messages

/-- C9: the conversation for any opening turn (in particular Con's, which
runs second) is a fixed message list, identical for any two transcripts,
so it cannot depend on the content of Pro's opening entry. -/
theorem opening_messages_independent (t1 t2 : List TEntry) :
    build_messages_from_transcript t1 DebatePhase.opening
      = build_messages_from_transcript t2 DebatePhase.opening := rfl

/-- Turn order per phase as driven by `_run_opening_phase`,
`_run_rebuttal_phase`, `_run_cross_examination_phase` and
`_run_closing_phase` (each turn appends one transcript entry). -/
def phase_turn_positions : DebatePhase → List DebatePosition
  | DebatePhase.opening => [DebatePosition.pro, DebatePosition.con]
  | DebatePhase.rebuttal => [DebatePosition.con, DebatePosition.pro]
  | DebatePhase.cross_examination =>
      [DebatePosition.pro, DebatePosition.con, DebatePosition.con, DebatePosition.pro]
  | DebatePhase.closing => [DebatePosition.pro, DebatePosition.con]
  | _ => []

/-- Number of entries of a phase in a transcript
(`DebateOrchestrator._phase_incomplete` counts these). -/
def countPhase (ph : DebatePhase) (t : List TEntry) : ℕ :=
  t.countP (fun e => e.phase == ph)

/-- One guarded phase execution from `DebateOrchestrator.run_debate`:
`if PHASE not in completed_phases or self._phase_incomplete(PHASE, n)`,
then run every turn of the phase (appending entries); nothing is deleted
first. `reply` gives the provider response for each turn index. -/
def run_phase_if_incomplete (reply : DebatePhase → ℕ → String)
    (completed_phases : List DebatePhase) (t : List TEntry)
    (ph : DebatePhase) (expected_entries : ℕ) : List TEntry :=
  if ¬(ph ∈ completed_phases) ∨ countPhase ph t < expected_entries then
    t ++ (phase_turn_positions ph).enum.map
      (fun ipos => (⟨ph, some ipos.2, reply ph ipos.1⟩ : TEntry))
  else t

/-- The phase loop of `DebateOrchestrator.run_debate` on the nominal path
(no content filter, no empty responses): `completed_phases` is computed
once from the loaded transcript, then each of the four debate phases is
re-run whenever its entry count is short. -/
def run_debate_phases (reply : DebatePhase → ℕ → String)
    (initial : List TEntry) : List TEntry :=
  let completed_phases := initial.map (fun e => e.phase)
  let t1 := run_phase_if_incomplete reply completed_phases initial DebatePhase.opening 2
  let t2 := run_phase_if_incomplete reply completed_phases t1 DebatePhase.rebuttal 2
  let t3 := run_phase_if_incomplete reply completed_phases t2 DebatePhase.cross_examination 4
  let t4 := run_phase_if_incomplete reply completed_phases t3 DebatePhase.closing 2
  t4

/-- C2: resuming a crashed debate whose opening phase is partial (exactly
one PRO opening entry present) re-runs the whole opening without
discarding the partial entry: the final transcript holds 3 opening
entries, not the expected 2 (the other phases do end at their expected
counts). -/
theorem resume_partial_opening_overcounts :
    countPhase DebatePhase.opening
        (run_debate_phases (fun _ _ => "argument")
          [⟨DebatePhase.opening, some DebatePosition.pro, "partial opening"⟩]) = 3 ∧
      countPhase DebatePhase.rebuttal
        (run_debate_phases (fun _ _ => "argument")
          [⟨DebatePhase.opening, some DebatePosition.pro, "partial opening"⟩]) = 2 ∧
      countPhase DebatePhase.cross_examination
        (run_debate_phases (fun _ _ => "argument")
          [⟨DebatePhase.opening, some DebatePosition.pro, "partial opening"⟩]) = 4 ∧
      countPhase DebatePhase.closing
        (run_debate_phases (fun _ _ => "argument")
          [⟨DebatePhase.opening, some DebatePosition.pro, "partial opening"⟩]) = 2 := by
  decide

/-! ## Replacement selection (`JudgeService._find_replacement_model` and
`JudgeService.judge_debate` content-filter handling) -/

/-- Descending-Elo order used by `order_by(Model.elo_rating.desc())`. -/
def eloGe (a b : Model) : Prop := b.elo_rating ≤ a.elo_rating

instance : DecidableRel eloGe := fun a b =>
  inferInstanceAs (Decidable (b.elo_rating ≤ a.elo_rating))

instance : IsTotal Model eloGe := ⟨fun a b => le_total b.elo_rating a.elo_rating⟩

instance : IsTrans Model eloGe := ⟨fun _ _ _ hab hbc => le_trans hbc hab⟩

/-- `_find_replacement_model`: the active models not in `exclude_ids`,
ordered by Elo descending, limit 1. -/
def find_replacement_model (db : List Model) (exclude_ids : List ℕ) : Option Model :=
  (List.insertionSort eloGe
    (db.filter (fun m => m.is_active && !(exclude_ids.contains m.id)))).head?

/-- The exclusion set `judge_debate` passes when the sitting judge hits a
content filter: both debaters, the auditor, every previously excused
model, and the offending judge itself. -/
def judge_exclude_ids (d : DebateRow) (excused : List ℕ) (current_judge : Model) :
    List ℕ :=
  [d.debater_pro_id, d.debater_con_id, d.auditor_id] ++ excused ++ [current_judge.id]

def no_replacement_judge_msg (m : Model) : String :=
  "No replacement judge available after " ++ m.name ++ " was blocked by content filter"

/-- The judge-substitution step of `JudgeService.judge_debate` after a
`ContentFilterError`: find a replacement or raise the unrecoverable
`RuntimeError`. -/
def substitute_judge (db : List Model) (d : DebateRow) (current_judge : Model)
    (excused : List ℕ) : Except String Model :=
  match find_replacement_model db (judge_exclude_ids d excused current_judge) with
  | none => Except.error (no_replacement_judge_msg current_judge)
  | some m => Except.ok m

/-- The models eligible to replace the judge. -/
def eligible_judges (db : List Model) (d : DebateRow) (current_judge : Model)
    (excused : List ℕ) : List Model :=
  db.filter (fun m =>
    m.is_active && !((judge_exclude_ids d excused current_judge).contains m.id))

/-- C6: a substituted judge is active, differs from both debaters, the
auditor, every previously excused model and the offending judge, comes
from the model table, and has maximal Elo among the eligible models; and
the unrecoverable error is raised exactly when no model is eligible. -/
theorem judge_substitution_spec (db : List Model) (d : DebateRow) (cj : Model)
    (excused : List ℕ) :
    (∀ m, substitute_judge db d cj excused = Except.ok m →
      m.is_active = true ∧ m.id ≠ d.debater_pro_id ∧ m.id ≠ d.debater_con_id ∧
        m.id ≠ d.auditor_id ∧ m.id ∉ excused ∧ m.id ≠ cj.id ∧ m ∈ db ∧
        ∀ m' ∈ eligible_judges db d cj excused, m'.elo_rating ≤ m.elo_rating) ∧
    (substitute_judge db d cj excused = Except.error (no_replacement_judge_msg cj) ↔
      eligible_judges db d cj excused = []) := by
  have hperm := List.perm_insertionSort eloGe (eligible_judges db d cj excused)
  have hsorted := List.sorted_insertionSort eloGe (eligible_judges db d cj excused)
  constructor
  · intro m hm
    rw [substitute_judge] at hm
    rcases hfind : find_replacement_model db (judge_exclude_ids d excused cj) with _ | m0
    · rw [hfind] at hm
      exact Except.noConfusion hm
    · rw [hfind] at hm
      cases hm
      rw [find_replacement_model] at hfind
      cases hs : List.insertionSort eloGe
          (db.filter (fun x =>
            x.is_active && !((judge_exclude_ids d excused cj).contains x.id))) with
      | nil =>
        rw [hs] at hfind
        exact Option.noConfusion hfind
      | cons hd tl =>
        rw [hs] at hfind
        have hhd : hd = m := by
          simpa using hfind
        subst hhd
        rw [show (db.filter (fun x =>
            x.is_active && !((judge_exclude_ids d excused cj).contains x.id)))
            = eligible_judges db d cj excused from rfl] at hs
        have hmem : hd ∈ eligible_judges db d cj excused := by
          apply hperm.subset
          rw [hs]
          exact List.mem_cons_self hd tl
        have hfilt := List.of_mem_filter hmem
        have hdb : hd ∈ db := List.mem_of_mem_filter hmem
        rw [Bool.and_eq_true, Bool.not_eq_true'] at hfilt
        have hnotin : hd.id ∉ judge_exclude_ids d excused cj := by
          simpa using hfilt.2
        have hnp : hd.id ≠ d.debater_pro_id := fun hEq =>
          hnotin (by simp [judge_exclude_ids, hEq])
        have hnc : hd.id ≠ d.debater_con_id := fun hEq =>
          hnotin (by simp [judge_exclude_ids, hEq])
        have hna : hd.id ≠ d.auditor_id := fun hEq =>
          hnotin (by simp [judge_exclude_ids, hEq])
        have hnex : hd.id ∉ excused := fun hEq =>
          hnotin (by simp [judge_exclude_ids, hEq])
        have hncj : hd.id ≠ cj.id := fun hEq =>
          hnotin (by simp [judge_exclude_ids, hEq])
        refine ⟨hfilt.1, hnp, hnc, hna, hnex, hncj, hdb, ?_⟩
        intro m' hm'
        have hm'sort : m' ∈ hd :: tl := by
          rw [← hs]
          exact (hperm.symm.subset) hm'
        rcases List.mem_cons.mp hm'sort with heq | htl
        · rw [heq]
        · rw [hs] at hsorted
          exact List.rel_of_sorted_cons hsorted m' htl
  · rw [substitute_judge, find_replacement_model]
    constructor
    · intro herr
      rcases hs : List.insertionSort eloGe
          (db.filter (fun x =>
            x.is_active && !((judge_exclude_ids d excused cj).contains x.id))) with _ | ⟨hd, tl⟩
      · rw [show (db.filter (fun x =>
            x.is_active && !((judge_exclude_ids d excused cj).contains x.id)))
            = eligible_judges db d cj excused from rfl] at hs
        rw [hs] at hperm
        exact List.perm_nil.mp hperm.symm
      · rw [hs] at herr
        simp at herr
    · intro hnil
      rw [show (db.filter (fun x =>
          x.is_active && !((judge_exclude_ids d excused cj).contains x.id)))
          = eligible_judges db d cj excused from rfl, hnil]
      rfl

def cjDebate : DebateRow :=
  ⟨1, 2, 3, 4, none, DebateStatus.judging, none, none, none, none⟩

def cjJudge : Model := ⟨3, "judge-model", "google", 1550, none, true, 0, 0, 0, 0⟩

def cjDb : List Model :=
  [⟨1, "pro-model", "openai", 1620, none, true, 0, 0, 0, 0⟩,
   ⟨7, "idle-low", "xai", 1480, none, true, 0, 0, 0, 0⟩,
   ⟨8, "idle-high", "mistral", 1605, none, true, 0, 0, 0, 0⟩,
   ⟨9, "idle-inactive", "deepseek", 1700, none, false, 0, 0, 0, 0⟩]

def cjBest : Model := ⟨8, "idle-high", "mistral", 1605, none, true, 0, 0, 0, 0⟩

theorem judge_substitution_spec_witness :
    substitute_judge cjDb cjDebate cjJudge [] = Except.ok cjBest ∧
      (cjBest.is_active = true ∧ cjBest.id ≠ cjDebate.debater_pro_id ∧
        cjBest.id ≠ cjDebate.debater_con_id ∧ cjBest.id ≠ cjDebate.auditor_id ∧
        cjBest.id ∉ ([] : List ℕ) ∧ cjBest.id ≠ cjJudge.id ∧ cjBest ∈ cjDb ∧
        ∀ m' ∈ eligible_judges cjDb cjDebate cjJudge [],
          m'.elo_rating ≤ cjBest.elo_rating) ∧
      substitute_judge [] cjDebate cjJudge [] =
        Except.error (no_replacement_judge_msg cjJudge) :=
  ⟨by decide,
   (judge_substitution_spec cjDb cjDebate cjJudge []).1 cjBest (by decide),
   (judge_substitution_spec [] cjDebate cjJudge []).2.mpr rfl⟩

/-! ## Quartet selection (`select_debate_models` in
`backend/app/services/scheduler.py`) -/

/-- The four role bindings returned by `select_debate_models`. -/
structure Quartet where
  debater_pro : Model
  debater_con : Model
  judge : Model
  auditor : Model
deriving DecidableEq

/-- Membership of the unordered pair `{a, b}` in the recent-matchup set
(the code stores matchups as frozensets of the two debater ids). -/
def inRecentMatchups (recent : List (ℕ × ℕ)) (a b : ℕ) : Bool :=
  recent.any (fun p => (p.1 == a && p.2 == b) || (p.1 == b && p.2 == a))

/-- Sort key for auditor candidates:
`m.avg_judge_score if m.avg_judge_score is not None else -1`. -/
def avgScoreKey (m : Model) : ℚ := m.avg_judge_score.getD (-1)

/-- Descending order on the auditor sort key (`reverse=True`). -/
def avgScoreGe (a b : Model) : Prop := avgScoreKey b ≤ avgScoreKey a

instance : DecidableRel avgScoreGe := fun a b =>
  inferInstanceAs (Decidable (avgScoreKey b ≤ avgScoreKey a))

instance : IsTotal Model avgScoreGe := ⟨fun a b => le_total (avgScoreKey b) (avgScoreKey a)⟩

instance : IsTrans Model avgScoreGe := ⟨fun _ _ _ hab hbc => le_trans hbc hab⟩

/-- The active models left after removing the excused ids (the SQL query at
the top of `select_debate_models`). -/
def active_models (db : List Model) (exclude_model_ids : List ℕ) : List Model :=
  db.filter (fun m => m.is_active && !(exclude_model_ids.contains m.id))

/-- One iteration of the shuffle loop in `select_debate_models`: take the
first two shuffled models as debaters, skip if that unordered pair is a
recent matchup, take the third as judge, then pick the auditor as the
best-avg-score candidate (everyone but the judge if reuse is allowed,
else everyone but the three roles). -/
def try_shuffled_selection (recent : List (ℕ × ℕ)) (allow_auditor_reuse : Bool)
    (shuffled : List Model) : Option Quartet :=
  match shuffled with
  | debater_pro :: debater_con :: rest =>
    if inRecentMatchups recent debater_pro.id debater_con.id then none
    else
      match rest with
      | [] => none
      | judge :: _ =>
        let auditor_candidates :=
          if allow_auditor_reuse then
            shuffled.filter (fun m => m.id != judge.id)
          else
            shuffled.filter (fun m =>
              !(m.id == debater_pro.id || m.id == debater_con.id || m.id == judge.id))
        match (List.insertionSort avgScoreGe auditor_candidates).head? with
        | none => none
        | some auditor => some ⟨debater_pro, debater_con, judge, auditor⟩
  | _ => none

/-- The `for _ in range(max_attempts)` loop (each iteration consumes the
next `random.shuffle` result). -/
def select_attempt_loop (recent : List (ℕ × ℕ)) (allow_auditor_reuse : Bool)
    (shuffles : ℕ → List Model) (i : ℕ) : ℕ → Option Quartet
  | 0 => none
  | fuel + 1 =>
    match try_shuffled_selection recent allow_auditor_reuse (shuffles i) with
    | some q => some q
    | none => select_attempt_loop recent allow_auditor_reuse shuffles (i + 1) fuel

/-- `select_debate_models` from `backend/app/services/scheduler.py`.
`shuffles i` is the outcome of the `i`-th `random.shuffle` (the fallback
after 50 failed attempts consumes one more shuffle). `recent` abstracts
the recent-matchup query. The wildcard `none` arms are unreachable for
lists of length at least 3 (Python would raise `IndexError`). -/
def select_debate_models (db : List Model) (exclude_model_ids : List ℕ)
    (recent : List (ℕ × ℕ)) (shuffles : ℕ → List Model) : Option Quartet :=
  let models := active_models db exclude_model_ids
  if models.length < 3 then none
  else
    let allow_auditor_reuse := decide (models.length < 4)
    match select_attempt_loop recent allow_auditor_reuse shuffles 0 50 with
    | some q => some q
    | none =>
      let s := shuffles 50
      if 4 ≤ models.length then
        match s with
        | a :: b :: c :: d :: _ => some ⟨a, b, c, d⟩
        | _ => none
      else
        match s with
        | a :: b :: c :: _ => some ⟨a, b, c, a⟩
        | _ => none

/-- What C8 requires of a quartet selected from exactly three models:
debaters and judge pairwise distinct, auditor not the judge, auditor a
duplicate of one debater. -/
def validThreeQuartet (q : Quartet) : Prop :=
  q.debater_pro.id ≠ q.debater_con.id ∧ q.debater_pro.id ≠ q.judge.id ∧
    q.debater_con.id ≠ q.judge.id ∧ q.auditor.id ≠ q.judge.id ∧
    (q.auditor.id = q.debater_pro.id ∨ q.auditor.id = q.debater_con.id)

/-- A selection result that exists and is a valid three-model quartet. -/
def quartetOk (o : Option Quartet) : Prop :=
  match o with
  | none => False
  | some q => validThreeQuartet q

theorem head?_mem {α : Type} {l : List α} {x : α} (h : l.head? = some x) : x ∈ l := by
  cases l with
  | nil => exact Option.noConfusion h
  | cons hd tl =>
    have : hd = x := by simpa using h
    rw [this]
    exact List.mem_cons_self x tl

theorem three_of_perm (L s : List Model) (hL : L.length = 3)
    (hnodup : L.Pairwise (fun a b => a.id ≠ b.id)) (hp : s.Perm L) :
    ∃ a b c, s = [a, b, c] ∧ a.id ≠ b.id ∧ a.id ≠ c.id ∧ b.id ≠ c.id := by
  have hslen : s.length = 3 := by rw [hp.length_eq, hL]
  have hsnodup : s.Pairwise (fun a b => a.id ≠ b.id) :=
    (hp.pairwise_iff (fun h => Ne.symm h)).mpr hnodup
  rcases s with _ | ⟨a, s⟩
  · simp at hslen
  rcases s with _ | ⟨b, s⟩
  · simp at hslen
  rcases s with _ | ⟨c, s⟩
  · simp at hslen
  rcases s with _ | ⟨d, s⟩
  · rw [List.pairwise_cons, List.pairwise_cons] at hsnodup
    exact ⟨a, b, c, rfl, hsnodup.1 b (by simp), hsnodup.1 c (by simp),
      hsnodup.2.1 c (by simp)⟩
  · simp at hslen

theorem try_shuffled_three (recent : List (ℕ × ℕ)) (a b c : Model)
    (hab : a.id ≠ b.id) (hac : a.id ≠ c.id) (hbc : b.id ≠ c.id) :
    ∀ q, try_shuffled_selection recent true [a, b, c] = some q → validThreeQuartet q := by
  intro q hq
  simp only [try_shuffled_selection] at hq
  cases hrec : inRecentMatchups recent a.id b.id with
  | true =>
    rw [hrec] at hq
    simp at hq
  | false =>
    rw [hrec] at hq
    simp only [Bool.false_eq_true, if_false, if_true] at hq
    rcases hh : (List.insertionSort avgScoreGe
        ([a, b, c].filter (fun m => m.id != c.id))).head? with _ | x
    · rw [hh] at hq
      exact Option.noConfusion hq
    · rw [hh] at hq
      cases hq
      have hxmem : x ∈ [a, b, c].filter (fun m => m.id != c.id) :=
        (List.perm_insertionSort avgScoreGe _).subset (head?_mem hh)
      have hxin : x ∈ [a, b, c] := List.mem_of_mem_filter hxmem
      have hxc : x.id ≠ c.id := by
        have := List.of_mem_filter hxmem
        simpa using this
      refine ⟨hab, hac, hbc, hxc, ?_⟩
      rcases List.mem_cons.mp hxin with h1 | hrest
      · exact Or.inl (by rw [h1])
      rcases List.mem_cons.mp hrest with h2 | hrest2
      · exact Or.inr (by rw [h2])
      rcases List.mem_cons.mp hrest2 with h3 | hnil
      · exact absurd (by rw [h3]) hxc
      · exact absurd hnil (List.not_mem_nil x)

theorem select_attempt_loop_sound (recent : List (ℕ × ℕ)) (shuffles : ℕ → List Model)
    (L : List Model) (hL : L.length = 3)
    (hnodup : L.Pairwise (fun a b => a.id ≠ b.id))
    (hperm : ∀ i, (shuffles i).Perm L) :
    ∀ fuel i q, select_attempt_loop recent true shuffles i fuel = some q →
      validThreeQuartet q := by
  intro fuel
  induction fuel with
  | zero =>
    intro i q h
    exact Option.noConfusion h
  | succ n ih =>
    intro i q h
    simp only [select_attempt_loop] at h
    rcases htry : try_shuffled_selection recent true (shuffles i) with _ | q0
    · rw [htry] at h
      exact ih (i + 1) q h
    · rw [htry] at h
      cases h
      obtain ⟨a, b, c, hs, hab, hac, hbc⟩ := three_of_perm L (shuffles i) hL hnodup (hperm i)
      rw [hs] at htry
      exact try_shuffled_three recent a b c hab hac hbc _ htry

/-- C8: with exactly three active models (after exclusions, with distinct
ids) the selector always returns a quartet whose debaters and judge are
pairwise distinct and whose auditor duplicates a debater but never the
judge; with two or fewer active models it returns `none`. -/
theorem select_debate_models_spec (db : List Model) (excl : List ℕ)
    (recent : List (ℕ × ℕ)) (shuffles : ℕ → List Model) :
    (((active_models db excl).length = 3 →
      (active_models db excl).Pairwise (fun a b => a.id ≠ b.id) →
      (∀ i, (shuffles i).Perm (active_models db excl)) →
      quartetOk (select_debate_models db excl recent shuffles)) ∧
     ((active_models db excl).length ≤ 2 →
      select_debate_models db excl recent shuffles = none)) := by
  constructor
  · intro hlen hnodup hperm
    simp only [select_debate_models]
    rw [if_neg (by omega)]
    rw [hlen]
    have hallow : decide ((3 : ℕ) < 4) = true := by decide
    rw [hallow]
    rcases hloop : select_attempt_loop recent true shuffles 0 50 with _ | q
    · obtain ⟨a, b, c, hs, hab, hac, hbc⟩ :=
        three_of_perm (active_models db excl) (shuffles 50) hlen hnodup (hperm 50)
      rw [hs]
      show validThreeQuartet ⟨a, b, c, a⟩
      exact ⟨hab, hac, hbc, hac, Or.inl rfl⟩
    · show validThreeQuartet q
      exact select_attempt_loop_sound recent shuffles (active_models db excl)
        hlen hnodup hperm 50 0 q hloop
  · intro hlen
    simp only [select_debate_models]
    rw [if_pos (by omega)]

def qm1 : Model := ⟨1, "alpha", "openai", 1500, none, true, 0, 0, 0, 0⟩

def qm2 : Model := ⟨2, "beta", "google", 1520, some 8, true, 0, 0, 0, 0⟩

def qm3 : Model := ⟨3, "gamma", "xai", 1480, none, true, 0, 0, 0, 0⟩

def qDb : List Model := [qm1, qm2, qm3]

def qDb2 : List Model := [qm1, qm2]

def qShuffles : ℕ → List Model := fun _ => [qm1, qm2, qm3]

theorem select_debate_models_spec_witness :
    quartetOk (select_debate_models qDb [] [] qShuffles) ∧
      select_debate_models qDb2 [] [] qShuffles = none :=
  ⟨(select_debate_models_spec qDb [] [] qShuffles).1 (by decide) (by decide)
      (fun _ => List.Perm.refl _),
   (select_debate_models_spec qDb2 [] [] qShuffles).2 (by decide)⟩

/-! ## Scheduler restart budget (`run_single_debate` in
`backend/app/services/scheduler.py`) -/

/-- `TopicStatus` from `backend/app/models/enums.py`. -/
inductive TopicStatus where
  | pending
  | approved
  | selected
  | debated
  | rejected
deriving DecidableEq

/-- One entry of the `content_filter_excuses` array kept by
`run_single_debate` and stored on `Debate.analysis_metadata`. -/
structure ExcuseRec where
  model_id : ℕ
  model_name : String
  role : String
  provider : String
  error_message : String
  attempt : ℕ
  reason : Option String
deriving DecidableEq

/-- Outcome of one attempt's pipeline (orchestrate, judge, audit, Elo) as
seen by the exception handlers of `run_single_debate`. The `culprit` of a
failure is the model identified by `_identify_excused_model` (content
filter) or by the name match in the timeout handler; `none` means no
model could be identified. -/
inductive AttemptOutcome where
  | success
  | contentFilter (culprit : Option Model) (message : String)
  | timeoutFailure (culprit : Option Model) (message : String)
deriving DecidableEq

/-- The scheduler-visible state `run_single_debate` threads across
attempts. -/
structure SchedulerState where
  excused_model_ids : List ℕ
  content_filter_excuses : List ExcuseRec
  topic_status : TopicStatus
  analysis_metadata : Option (List ExcuseRec)
deriving DecidableEq

/-- How `run_single_debate` returns: a completed debate, `None` (no topic
models / loop fell through), or a propagated exception. -/
inductive RunOutcome where
  | completedDebate
  | noDebate
  | raised (message : String)
deriving DecidableEq

def isRaised : RunOutcome → Bool
  | RunOutcome.raised _ => true
  | _ => false

def MAX_CONTENT_FILTER_RESTARTS : ℕ := 3

/-- Role lookup order of the `ContentFilterError` handler. -/
def roleOf (q : Quartet) (m : Model) : String :=
  if m.id = q.debater_pro.id then "debater_pro"
  else if m.id = q.debater_con.id then "debater_con"
  else if m.id = q.judge.id then "judge"
  else "auditor"

/-- Role lookup order of the `TimeoutError` handler. -/
def timeoutRoleOf (q : Quartet) (m : Model) : String :=
  if m.id = q.judge.id then "judge"
  else if m.id = q.auditor.id then "auditor"
  else if m.id = q.debater_pro.id then "debater_pro"
  else "debater_con"

/-- The `ContentFilterError` handler body before the budget check: when a
culprit was identified, mark it excused and append an excuse record
(attempt numbers are 1-based). -/
def applyContentFilterExcuse (st : SchedulerState) (q : Quartet)
    (culprit : Option Model) (msg : String) (attempt : ℕ) : SchedulerState :=
  match culprit with
  | none => st
  | some m =>
    { st with
      excused_model_ids := st.excused_model_ids ++ [m.id],
      content_filter_excuses := st.content_filter_excuses ++
        [⟨m.id, m.name, roleOf q m, m.provider, msg, attempt + 1, none⟩] }

/-- The `TimeoutError` handler body before the budget check: excuse the
identified model, or presume the judge when none was identified. -/
def applyTimeoutExcuse (st : SchedulerState) (q : Quartet)
    (culprit : Option Model) (msg : String) (attempt : ℕ) : SchedulerState :=
  match culprit with
  | some m =>
    { st with
      excused_model_ids := st.excused_model_ids ++ [m.id],
      content_filter_excuses := st.content_filter_excuses ++
        [⟨m.id, m.name, timeoutRoleOf q m, m.provider, msg, attempt + 1, some "timeout"⟩] }
  | none =>
    { st with
      excused_model_ids := st.excused_model_ids ++ [q.judge.id],
      content_filter_excuses := st.content_filter_excuses ++
        [⟨q.judge.id, q.judge.name, "judge", q.judge.provider, msg, attempt + 1,
          some "timeout"⟩] }

/-- The budget-exceeded epilogue shared by the failure handlers: reset the
topic to PENDING and store the accumulated excuses on
`analysis_metadata` (when any exist) before re-raising. -/
def failDebateState (st : SchedulerState) : SchedulerState :=
  { st with
    topic_status := TopicStatus.pending,
    analysis_metadata :=
      if st.content_filter_excuses ≠ [] then some st.content_filter_excuses
      else st.analysis_metadata }

/-- One iteration of the `for attempt in range(MAX + 1)` loop of
`run_single_debate`. `select attempt` abstracts `select_debate_models`
(excused models removed); `outcome attempt` is what the pipeline does.
`none` in the second component means `continue`. -/
def debate_attempt_step (select : ℕ → Option Quartet) (outcome : ℕ → AttemptOutcome)
    (attempt : ℕ) (st : SchedulerState) : SchedulerState × Option RunOutcome :=
  match select attempt with
  | none => (st, some RunOutcome.noDebate)
  | some q =>
    match outcome attempt with
    | AttemptOutcome.success =>
      ({ st with
          topic_status := TopicStatus.debated,
          analysis_metadata :=
            if st.content_filter_excuses ≠ [] then some st.content_filter_excuses
            else st.analysis_metadata },
       some RunOutcome.completedDebate)
    | AttemptOutcome.contentFilter culprit msg =>
      let st1 := applyContentFilterExcuse st q culprit msg attempt
      if attempt ≥ MAX_CONTENT_FILTER_RESTARTS then
        (failDebateState st1, some (RunOutcome.raised msg))
      else (st1, none)
    | AttemptOutcome.timeoutFailure culprit msg =>
      let st1 := applyTimeoutExcuse st q culprit msg attempt
      if attempt ≥ MAX_CONTENT_FILTER_RESTARTS then
        (failDebateState st1, some (RunOutcome.raised msg))
      else (st1, none)

/-- The attempt loop (`fuel` counts the remaining iterations; the loop
falls through to `return None` when it ends without returning). -/
def run_attempts (select : ℕ → Option Quartet) (outcome : ℕ → AttemptOutcome) :
    ℕ → ℕ → SchedulerState → SchedulerState × RunOutcome
  | 0, _, st => (st, RunOutcome.noDebate)
  | fuel + 1, attempt, st =>
    match debate_attempt_step select outcome attempt st with
    | (st', some r) => (st', r)
    | (st', none) => run_attempts select outcome fuel (attempt + 1) st'

def initSchedulerState : SchedulerState := ⟨[], [], TopicStatus.selected, none⟩

/-- The attempt state machine of `run_single_debate`: one initial attempt
plus `MAX_CONTENT_FILTER_RESTARTS` restarts. -/
def run_single_debate_attempts (select : ℕ → Option Quartet)
    (outcome : ℕ → AttemptOutcome) : SchedulerState × RunOutcome :=
  run_attempts select outcome (MAX_CONTENT_FILTER_RESTARTS + 1) 0 initSchedulerState

/-- A failure outcome whose offending model was identified. -/
def identifiedFailure : AttemptOutcome → Bool
  | AttemptOutcome.contentFilter (some _) _ => true
  | AttemptOutcome.timeoutFailure (some _) _ => true
  | _ => false

/-- `addExcuse st e` is the common shape of both failure handlers on an
identified culprit. -/
def addExcuse (st : SchedulerState) (e : ExcuseRec) : SchedulerState :=
  { st with
    excused_model_ids := st.excused_model_ids ++ [e.model_id],
    content_filter_excuses := st.content_filter_excuses ++ [e] }

theorem identifiedFailure_cases (o : AttemptOutcome)
    (h : identifiedFailure o = true) :
    (∃ m msg, o = AttemptOutcome.contentFilter (some m) msg) ∨
      (∃ m msg, o = AttemptOutcome.timeoutFailure (some m) msg) := by
  cases o with
  | success => exact absurd h (by simp [identifiedFailure])
  | contentFilter c msg =>
    cases c with
    | none => exact absurd h (by simp [identifiedFailure])
    | some m => exact Or.inl ⟨m, msg, rfl⟩
  | timeoutFailure c msg =>
    cases c with
    | none => exact absurd h (by simp [identifiedFailure])
    | some m => exact Or.inr ⟨m, msg, rfl⟩

theorem step_continue (select : ℕ → Option Quartet) (outcome : ℕ → AttemptOutcome)
    (attempt : ℕ) (st : SchedulerState) (hlt : attempt < MAX_CONTENT_FILTER_RESTARTS)
    (hsel : (select attempt).isSome = true)
    (hout : identifiedFailure (outcome attempt) = true) :
    ∃ e, debate_attempt_step select outcome attempt st = (addExcuse st e, none) ∧
      e.attempt = attempt + 1 := by
  obtain ⟨q, hq⟩ := Option.isSome_iff_exists.mp hsel
  rcases identifiedFailure_cases _ hout with ⟨m, msg, ho⟩ | ⟨m, msg, ho⟩
  · exact ⟨⟨m.id, m.name, roleOf q m, m.provider, msg, attempt + 1, none⟩,
      by simp [debate_attempt_step, hq, ho, applyContentFilterExcuse, addExcuse,
        Nat.not_le.mpr hlt], rfl⟩
  · exact ⟨⟨m.id, m.name, timeoutRoleOf q m, m.provider, msg, attempt + 1, some "timeout"⟩,
      by simp [debate_attempt_step, hq, ho, applyTimeoutExcuse, addExcuse,
        Nat.not_le.mpr hlt], rfl⟩

theorem step_raise (select : ℕ → Option Quartet) (outcome : ℕ → AttemptOutcome)
    (st : SchedulerState) (hsel : (select MAX_CONTENT_FILTER_RESTARTS).isSome = true)
    (hout : identifiedFailure (outcome MAX_CONTENT_FILTER_RESTARTS) = true) :
    ∃ e msg, debate_attempt_step select outcome MAX_CONTENT_FILTER_RESTARTS st
        = (failDebateState (addExcuse st e), some (RunOutcome.raised msg)) ∧
      e.attempt = MAX_CONTENT_FILTER_RESTARTS + 1 := by
  obtain ⟨q, hq⟩ := Option.isSome_iff_exists.mp hsel
  rcases identifiedFailure_cases _ hout with ⟨m, msg, ho⟩ | ⟨m, msg, ho⟩
  · exact ⟨⟨m.id, m.name, roleOf q m, m.provider, msg,
      MAX_CONTENT_FILTER_RESTARTS + 1, none⟩, msg,
      by simp [debate_attempt_step, hq, ho, applyContentFilterExcuse, addExcuse], rfl⟩
  · exact ⟨⟨m.id, m.name, timeoutRoleOf q m, m.provider, msg,
      MAX_CONTENT_FILTER_RESTARTS + 1, some "timeout"⟩, msg,
      by simp [debate_attempt_step, hq, ho, applyTimeoutExcuse, addExcuse], rfl⟩

theorem run_attempts_cont (select : ℕ → Option Quartet) (outcome : ℕ → AttemptOutcome)
    (fuel attempt : ℕ) (st st' : SchedulerState)
    (h : debate_attempt_step select outcome attempt st = (st', none)) :
    run_attempts select outcome (fuel + 1) attempt st
      = run_attempts select outcome fuel (attempt + 1) st' := by
  show (match debate_attempt_step select outcome attempt st with
    | (st', some r) => (st', r)
    | (st', none) => run_attempts select outcome fuel (attempt + 1) st') = _
  rw [h]

theorem run_attempts_stop (select : ℕ → Option Quartet) (outcome : ℕ → AttemptOutcome)
    (fuel attempt : ℕ) (st st' : SchedulerState) (r : RunOutcome)
    (h : debate_attempt_step select outcome attempt st = (st', some r)) :
    run_attempts select outcome (fuel + 1) attempt st = (st', r) := by
  show (match debate_attempt_step select outcome attempt st with
    | (st', some r) => (st', r)
    | (st', none) => run_attempts select outcome fuel (attempt + 1) st') = _
  rw [h]

/-- C7: when every attempt of a scheduled debate fails with an identified
content-filter or timeout error, after the initial attempt plus 3
restarts the run raises, the topic is reset to PENDING, and the debate's
`analysis_metadata` holds exactly the four excuses recorded across the
attempts (attempt numbers 1 through 4). -/
theorem restart_budget_exhausted (select : ℕ → Option Quartet)
    (outcome : ℕ → AttemptOutcome)
    (hsel : ∀ a, a < 4 → (select a).isSome = true)
    (hout : ∀ a, a < 4 → identifiedFailure (outcome a) = true) :
    isRaised (run_single_debate_attempts select outcome).2 = true ∧
      (run_single_debate_attempts select outcome).1.topic_status = TopicStatus.pending ∧
      (run_single_debate_attempts select outcome).1.analysis_metadata
        = some (run_single_debate_attempts select outcome).1.content_filter_excuses ∧
      ((run_single_debate_attempts select outcome).1.content_filter_excuses.map
        (fun e => e.attempt)) = [1, 2, 3, 4] := by
  obtain ⟨e0, hstep0, he0⟩ :=
    step_continue select outcome 0 initSchedulerState (by decide)
      (hsel 0 (by omega)) (hout 0 (by omega))
  obtain ⟨e1, hstep1, he1⟩ :=
    step_continue select outcome 1 (addExcuse initSchedulerState e0) (by decide)
      (hsel 1 (by omega)) (hout 1 (by omega))
  obtain ⟨e2, hstep2, he2⟩ :=
    step_continue select outcome 2 (addExcuse (addExcuse initSchedulerState e0) e1)
      (by decide) (hsel 2 (by omega)) (hout 2 (by omega))
  obtain ⟨e3, msg, hstep3, he3⟩ :=
    step_raise select outcome
      (addExcuse (addExcuse (addExcuse initSchedulerState e0) e1) e2)
      (hsel 3 (by omega)) (hout 3 (by omega))
  simp only [MAX_CONTENT_FILTER_RESTARTS] at hstep3 he3
  have hrun : run_single_debate_attempts select outcome
      = (failDebateState
          (addExcuse (addExcuse (addExcuse (addExcuse initSchedulerState e0) e1) e2) e3),
         RunOutcome.raised msg) := by
    rw [run_single_debate_attempts]
    show run_attempts select outcome 4 0 initSchedulerState = _
    rw [run_attempts_cont select outcome 3 0 _ _ hstep0,
        run_attempts_cont select outcome 2 1 _ _ hstep1,
        run_attempts_cont select outcome 1 2 _ _ hstep2,
        run_attempts_stop select outcome 0 3 _ _ _ hstep3]
  rw [hrun]
  refine ⟨rfl, rfl, ?_, ?_⟩
  · simp [failDebateState, addExcuse, initSchedulerState]
  · simp [failDebateState, addExcuse, initSchedulerState, he0, he1, he2, he3]

def c7Quartet : Quartet := ⟨qm1, qm2, qm3, qm2⟩

def c7Select : ℕ → Option Quartet := fun _ => some c7Quartet

def c7Outcome : ℕ → AttemptOutcome :=
  fun _ => AttemptOutcome.contentFilter (some qm2) "content filter triggered"

theorem restart_budget_exhausted_witness :
    (∀ a, a < 4 → (c7Select a).isSome = true) ∧
      (∀ a, a < 4 → identifiedFailure (c7Outcome a) = true) ∧
      (isRaised (run_single_debate_attempts c7Select c7Outcome).2 = true ∧
        (run_single_debate_attempts c7Select c7Outcome).1.topic_status
          = TopicStatus.pending ∧
        (run_single_debate_attempts c7Select c7Outcome).1.analysis_metadata
          = some (run_single_debate_attempts c7Select c7Outcome).1.content_filter_excuses ∧
        ((run_single_debate_attempts c7Select c7Outcome).1.content_filter_excuses.map
          (fun e => e.attempt)) = [1, 2, 3, 4]) :=
  ⟨by decide, by decide,
   restart_budget_exhausted c7Select c7Outcome (by decide) (by decide)⟩

/-! ## Commit placement of the Elo update (`run_single_debate`,
`DebateScheduler._recover_stuck_debate`, `JudgeService.audit_judge`) -/

/-- Database writes the completion pipeline performs on the rows relevant
to C3; `commit` makes the current in-memory state durable, a flush does
not. -/
inductive DbOp where
  | setScores
  | setAudit
  | setStatus (s : DebateStatus)
  | applyElo
  | setTopic (t : TopicStatus)
  | commit
deriving DecidableEq

/-- The debate/model/topic fields C3 observes. -/
structure TxnState where
  status : DebateStatus
  scores_set : Bool
  audit_set : Bool
  elo_applied : Bool
  topic_status : TopicStatus
deriving DecidableEq

def applyOp (s : TxnState) : DbOp → TxnState
  | DbOp.setScores => { s with scores_set := true }
  | DbOp.setAudit => { s with audit_set := true }
  | DbOp.setStatus st => { s with status := st }
  | DbOp.applyElo => { s with elo_applied := true }
  | DbOp.setTopic t => { s with topic_status := t }
  | DbOp.commit => s

/-- The sequence of durable snapshots an op list produces. -/
def committedStates : TxnState → List DbOp → List TxnState
  | _, [] => []
  | s, DbOp.commit :: rest => s :: committedStates s rest
  | s, op :: rest => committedStates (applyOp s op) rest

/-- `JudgeService.judge_debate`: persists scores and winner, flush only. -/
def judge_debate_ops : List DbOp := [DbOp.setScores]

/-- `JudgeService.audit_judge`: persists the audit scores, then sets
`status := COMPLETED`, flush only. -/
def audit_judge_ops : List DbOp :=
  [DbOp.setAudit, DbOp.setStatus DebateStatus.completed]

/-- `update_elos_for_debate`: writes ratings, counters and snapshots,
flush only. -/
def elo_ops : List DbOp := [DbOp.applyElo]

/-- `DebateOrchestrator.run_debate`: commits the IN_PROGRESS transition,
one commit per phase, then commits the JUDGING transition. -/
def orchestrator_run_ops : List DbOp :=
  [DbOp.setStatus DebateStatus.in_progress, DbOp.commit,
   DbOp.commit, DbOp.commit, DbOp.commit, DbOp.commit,
   DbOp.setStatus DebateStatus.judging, DbOp.commit]

/-- The success path of `run_single_debate` inside
`DebateScheduler._run_scheduled_debate`: one commit after the
orchestrator, then judgment, audit, Elo and the topic update all flushed
and committed together by the caller's single commit. -/
def scheduler_path_ops : List DbOp :=
  orchestrator_run_ops ++ [DbOp.commit] ++ judge_debate_ops ++ audit_judge_ops ++
    elo_ops ++ [DbOp.setTopic TopicStatus.debated, DbOp.commit]

/-- The success path of `DebateScheduler._recover_stuck_debate` (judgment
not yet persisted): a commit right after `judge_debate`, a commit right
after `audit_judge` (which contains the COMPLETED transition), and only
then the Elo update and topic update under a final commit. -/
def watchdog_recovery_ops : List DbOp :=
  judge_debate_ops ++ [DbOp.commit] ++ audit_judge_ops ++ [DbOp.commit] ++
    elo_ops ++ [DbOp.setTopic TopicStatus.debated, DbOp.commit]

def schedulerInitTxn : TxnState :=
  ⟨DebateStatus.scheduled, false, false, false, TopicStatus.selected⟩

def watchdogInitTxn : TxnState :=
  ⟨DebateStatus.judging, false, false, false, TopicStatus.selected⟩

/-- C3 counterexample: on the watchdog recovery path there is a committed
(durable) state in which the debate is COMPLETED but the Elo update has
not been applied — the commit issued right after `audit_judge` and
before `update_elos_for_debate`. -/
theorem elo_completed_commit_cex :
    ¬(∀ s ∈ committedStates watchdogInitTxn watchdog_recovery_ops,
        s.status = DebateStatus.completed → s.elo_applied = true) := by
  decide

/-- C3 (amended): on the scheduler path every committed state that shows
the debate COMPLETED also has the Elo update applied (they share the
caller's single commit); on the watchdog recovery path the COMPLETED
transition is committed with the audit results before the Elo commit, so
a committed COMPLETED-without-Elo state exists transiently, though the
final committed state has the Elo applied and the topic debated. -/
theorem elo_completed_commit_amended :
    (∀ s ∈ committedStates schedulerInitTxn scheduler_path_ops,
        s.status = DebateStatus.completed → s.elo_applied = true) ∧
      (committedStates watchdogInitTxn watchdog_recovery_ops).getLast?
        = some ⟨DebateStatus.completed, true, true, true, TopicStatus.debated⟩ := by
  decide

end Robuttal
